import Mathlib

/-!
A shallow embedding of `job_aggregator.py` (repository GetAJob).

External collaborators are parameters of the embedding:
* the spaCy pipeline is a tokenizer `nlp : String → List Token` (each token
  carries its part-of-speech tag, stop-word flag, alphabetic flag and lemma);
* the spaCy document similarity is `sim : String → String → ℚ`;
* the Google search provider is `searchFn : String → List String`;
* the page scraper `extract_job_details` is `scrape : String → Option Job`;
* the current wall clock `datetime.now()` is a rational number of days
  `now : ℚ` on the proleptic Gregorian ordinal scale of Python's
  `date.toordinal` (integer part: ordinal of today; fractional part: time
  of day), so `datetime.now() - post_date < timedelta(days=t)` becomes
  `now - toOrdinal d < t`;
* the resume file read is `resume : Option String` (`none`: the file does
  not exist or reading raised; `some text`: the extracted text).

Python strings are Lean `String`s, and the string operations the source
uses (`[:10]`, `.strip()`, `.lower()`, `strptime` digit fields) are
implemented over the underlying character list. Python `float` scores are
embedded as `ℚ`; `round(x, 2)` is round-half-to-even at two decimals.
Python's stable `list.sort(key, reverse=True)` is `List.mergeSort` with
the comparison `key b ≤ key a`, which is a stable descending sort.
-/

/-- Python `str.strip()` on a character list: drop whitespace on both ends. -/
def pyStripChars (l : List Char) : List Char :=
  ((l.dropWhile Char.isWhitespace).reverse.dropWhile Char.isWhitespace).reverse

/-- Python `str.strip()`. -/
def pyStrip (s : String) : String := ⟨pyStripChars s.data⟩

/-- Python `str.lower()`. -/
def pyLower (s : String) : String := ⟨s.data.map Char.toLower⟩

/-- Split a character list on the character `'-'`, Python `str.split("-")`. -/
def splitDash : List Char → List (List Char)
  | [] => [[]]
  | c :: rest =>
    let r := splitDash rest
    if c = '-' then [] :: r else (c :: r.headI) :: r.tail

/-- The numeric value of a decimal digit character. -/
def digitVal (c : Char) : ℕ := c.toNat - 48

/-- A nonempty all-digit character list read as a decimal number, as the
`\d...` fields of `strptime` followed by `int(...)` read it. -/
def decDigits? (l : List Char) : Option ℕ :=
  if l ≠ [] ∧ l.all Char.isDigit then
    some (l.foldl (fun n c => n * 10 + digitVal c) 0)
  else none

/-- A parsed calendar date, the value of `datetime.strptime(s, "%Y-%m-%d")`. -/
structure Date where
  year : ℕ
  month : ℕ
  day : ℕ
deriving DecidableEq

/-- Gregorian leap-year rule used by Python's `datetime`. -/
def isLeap (y : ℕ) : Bool := (y % 4 == 0 && y % 100 != 0) || y % 400 == 0

/-- Number of days in month `m` of year `y`. -/
def monthLength (y m : ℕ) : ℕ :=
  if m = 2 then (if isLeap y then 29 else 28)
  else if m = 4 ∨ m = 6 ∨ m = 9 ∨ m = 11 then 30
  else 31

/-- Days in all years before year `y` (year 1 is the first year). -/
def daysBeforeYear (y : ℕ) : ℕ :=
  365 * (y - 1) + (y - 1) / 4 + (y - 1) / 400 - (y - 1) / 100

/-- Days in the months of year `y` strictly before month `m`. -/
def daysBeforeMonth (y m : ℕ) : ℕ :=
  ((List.range (m - 1)).map (fun i => monthLength y (i + 1))).sum

/-- Python `date.toordinal`: day number of a date, with 0001-01-01 ↦ 1. -/
def toOrdinal (d : Date) : ℕ :=
  daysBeforeYear d.year + daysBeforeMonth d.year d.month + d.day

/-- The outcome of `datetime.strptime(post_date_str[:10], "%Y-%m-%d")`:
`%Y` is exactly four digits, `%m` and `%d` are one or two digits, the whole
(truncated) string must be consumed, and the `datetime` constructor then
validates `1 ≤ year`, `1 ≤ month ≤ 12` and `1 ≤ day ≤` length of the month.
`none` is the `ValueError` path. -/
def parseDate10 (s : String) : Option Date :=
  match splitDash (s.data.take 10) with
  | [ys, ms, ds] =>
    match decDigits? ys, decDigits? ms, decDigits? ds with
    | some y, some m, some d =>
      if ys.length = 4 ∧ 1 ≤ y ∧ ms.length ≤ 2 ∧ 1 ≤ m ∧ m ≤ 12 ∧
          ds.length ≤ 2 ∧ 1 ≤ d ∧ d ≤ monthLength y m
      then some ⟨y, m, d⟩ else none
    | _, _, _ => none
  | _ => none

/-- The source's `is_recent(post_date_str, days_threshold)`: parse the first
ten characters as a date; on failure return `False`; otherwise return
`datetime.now() - post_date < timedelta(days=days_threshold)`. -/
def is_recent (now : ℚ) (post_date_str : String) (days_threshold : ℤ) : Bool :=
  match parseDate10 post_date_str with
  | none => false
  | some post_date => decide (now - (toOrdinal post_date : ℚ) < (days_threshold : ℚ))

/-- A spaCy token as `extract_keywords` consumes it: part-of-speech tag,
stop-word flag, alphabetic flag, and lemma. -/
structure Token where
  pos : String
  is_stop : Bool
  is_alpha : Bool
  lem : String
deriving DecidableEq

/-- The source's `extract_keywords(text)`: keep tokens tagged NOUN, PROPN or
ADJ that are not stop words and are alphabetic; collect the lower-cased
lemmas as a set. -/
def extract_keywords (nlp : String → List Token) (text : String) : Finset String :=
  (((nlp text).filter (fun tok =>
      decide (tok.pos = "NOUN" ∨ tok.pos = "PROPN" ∨ tok.pos = "ADJ") &&
        !tok.is_stop && tok.is_alpha)).map
    (fun tok => pyLower tok.lem)).toFinset

/-- A job posting record as built by `extract_job_details` and consumed by
the engine; `match_percentage` is absent until resume matching sets it. -/
structure Job where
  title : String
  company : String
  date : Option String
  description : String
  url : String
  match_percentage : Option ℚ
deriving DecidableEq

/-- The source's `construct_google_query(job_title, board_domain)`. -/
def construct_google_query (job_title board_domain : String) : String :=
  "site:" ++ board_domain ++ " \"" ++ job_title ++ "\""

/-- Python truthiness of the `date` field: `None` and the empty string are
falsy, every other string is truthy. -/
def dateTruthy : Option String → Bool
  | none => false
  | some s => decide (s ≠ "")

/-- The admission test inside `search_jobs`:
`(job_details.get("date") and is_recent(job_details["date"], days_threshold))
 or not job_details.get("date")`. -/
def recencyAdmit (isrec : String → Bool) (job : Job) : Bool :=
  (dateTruthy job.date && isrec (job.date.getD "")) || !dateTruthy job.date

/-- The per-board URL loop of `search_jobs`: scrape each URL, append the
record when the scrape succeeded and the admission test passes, count every
URL, and stop once five URLs have been consumed. -/
def collectFrom (scrape : String → Option Job) (isrec : String → Bool) :
    List String → ℕ → List Job
  | [], _ => []
  | url :: rest, count =>
    (match scrape url with
     | some job_details => if recencyAdmit isrec job_details then [job_details] else []
     | none => []) ++
    (if count + 1 ≥ 5 then [] else collectFrom scrape isrec rest (count + 1))

/-- The fixed board list of `search_jobs`. -/
def job_boards : List String :=
  ["greenhouse.io", "jobs.lever.co", "boards.greenhouse.io",
   "job-boards.greenhouse.io", "jobs.jobvite.com"]

/-- The source's `search_jobs(job_type, days_threshold)` with the search
provider and the scraper abstracted. -/
def search_jobs (searchFn : String → List String) (scrape : String → Option Job)
    (now : ℚ) (job_type : String) (days_threshold : ℤ) : List Job :=
  (job_boards.map (fun board =>
    collectFrom scrape (fun s => is_recent now s days_threshold)
      (searchFn (construct_google_query job_type board)) 0)).flatten

/-- The pre-sort accumulator `similar_jobs` of `find_similar_jobs`: skip the
job whose url equals the reference's, score every other job, keep pairs with
score at or above the threshold, in input order. -/
def similarCandidates (sim : String → String → ℚ) (reference_job : Job)
    (job_list : List Job) (threshold : ℚ) : List (Job × ℚ) :=
  job_list.filterMap (fun job =>
    if job.url = reference_job.url then none
    else
      let score := sim reference_job.description job.description
      if threshold ≤ score then some (job, score) else none)

/-- The source's `find_similar_jobs(reference_job, job_list, threshold)`:
the accumulated pairs, stably sorted by descending similarity score. -/
def find_similar_jobs (sim : String → String → ℚ) (reference_job : Job)
    (job_list : List Job) (threshold : ℚ) : List (Job × ℚ) :=
  (similarCandidates sim reference_job job_list threshold).mergeSort
    (fun a b => decide (b.2 ≤ a.2))

/-- Round-half-to-even to an integer, Python's `round` on exact values. -/
def roundHalfEven (q : ℚ) : ℤ :=
  if q - ⌊q⌋ < 1 / 2 then ⌊q⌋
  else if 1 / 2 < q - ⌊q⌋ then ⌊q⌋ + 1
  else if ⌊q⌋ % 2 = 0 then ⌊q⌋ else ⌊q⌋ + 1

/-- Python `round(x, 2)`: round to two decimal places, ties to even. -/
def pyRound2 (q : ℚ) : ℚ := (roundHalfEven (q * 100) : ℚ) / 100

/-- The score expression of `match_jobs_to_resume`:
`(len(intersection) / len(union)) * 100 if union else 0`. -/
def match_score (resume_keywords job_keywords : Finset String) : ℚ :=
  let intersection := resume_keywords ∩ job_keywords
  let union := resume_keywords ∪ job_keywords
  if union ≠ ∅ then ((intersection.card : ℚ) / (union.card : ℚ)) * 100 else 0

/-- The pre-sort accumulator `matched_jobs` of `match_jobs_to_resume`: skip
jobs whose stripped description is empty or whose keyword set is empty;
otherwise attach the rounded score as `match_percentage`, in input order. -/
def matchedJobs (nlp : String → List Token) (resume_keywords : Finset String)
    (job_list : List Job) : List Job :=
  job_list.filterMap (fun job =>
    let job_description := pyStrip job.description
    if job_description = "" then none
    else
      let job_keywords := extract_keywords nlp job_description
      if job_keywords = ∅ then none
      else
        let pct := pyRound2 (match_score resume_keywords job_keywords)
        some { job with match_percentage := some pct })

/-- The sort key `x["match_percentage"]` of `match_jobs_to_resume`; every
job in the sorted list carries a score, so the default is never read. -/
def matchKey (j : Job) : ℚ := j.match_percentage.getD 0

/-- The record a surviving job becomes in `matchedJobs`: the input job with
the rounded Jaccard score attached as its match percentage. -/
def scoredJob (nlp : String → List Token) (rk : Finset String) (a : Job) : Job :=
  let pct := pyRound2 (match_score rk (extract_keywords nlp (pyStrip a.description)))
  { a with match_percentage := some pct }

/-- The source's `match_jobs_to_resume(resume_file, job_list)` with the file
read abstracted: `none` covers a missing file and a read error; an
empty-after-strip text and an empty resume keyword set abort with `[]`;
otherwise the scored jobs, stably sorted by descending match percentage. -/
def match_jobs_to_resume (nlp : String → List Token) (resume : Option String)
    (job_list : List Job) : List Job :=
  match resume with
  | none => []
  | some resume_text =>
    if pyStrip resume_text = "" then []
    else
      let resume_keywords := extract_keywords nlp resume_text
      if resume_keywords = ∅ then []
      else (matchedJobs nlp resume_keywords job_list).mergeSort
        (fun a b => decide (matchKey b ≤ matchKey a))

/-- A tokenizer that makes every document a single noun keyword, used to
instantiate theorems at concrete inputs. -/
def nlpX : String → List Token := fun s => [⟨"NOUN", false, true, s⟩]

/-- A tokenizer that yields no tokens, used for concrete instantiations. -/
def nlpE : String → List Token := fun _ => []

/-- A constant similarity function, used for concrete instantiations. -/
def simZero : String → String → ℚ := fun _ _ => 0

/-- A concrete posting, used for concrete instantiations. -/
def jobA : Job := ⟨"Engineer", "A", none, "python", "https://a", none⟩

/-- A second concrete posting with a different url. -/
def jobB : Job := ⟨"Developer", "B", none, "python", "https://b", none⟩

/-- A concrete posting whose date field is the empty string. -/
def jobEmptyDate : Job := ⟨"T", "N/A", some "", "d", "https://c", none⟩



/-- On the non-aborting path, `match_jobs_to_resume` is the stable
descending sort of the accumulator `matchedJobs`. -/
theorem match_jobs_eq (nlp : String → List Token) (resume_text : String)
    (job_list : List Job) (h1 : pyStrip resume_text ≠ "")
    (h2 : extract_keywords nlp resume_text ≠ ∅) :
    match_jobs_to_resume nlp (some resume_text) job_list =
      (matchedJobs nlp (extract_keywords nlp resume_text) job_list).mergeSort
        (fun a b => decide (matchKey b ≤ matchKey a)) := by
  simp [match_jobs_to_resume, h1, h2]

/-- Membership in the accumulator `matchedJobs`: exactly the input jobs with
nonempty stripped description and nonempty keyword set, with the rounded
score attached. -/
theorem mem_matchedJobs_iff (nlp : String → List Token) (rk : Finset String)
    (job_list : List Job) (j : Job) :
    j ∈ matchedJobs nlp rk job_list ↔
      ∃ a ∈ job_list, pyStrip a.description ≠ "" ∧
        extract_keywords nlp (pyStrip a.description) ≠ ∅ ∧
        j = scoredJob nlp rk a := by
  unfold matchedJobs
  rw [List.mem_filterMap]
  constructor
  · rintro ⟨a, ha, hfa⟩
    by_cases hd : pyStrip a.description = ""
    · simp [hd] at hfa
    · by_cases hk : extract_keywords nlp (pyStrip a.description) = ∅
      · simp [hd, hk] at hfa
      · simp [hd, hk] at hfa
        exact ⟨a, ha, hd, hk, by rw [← hfa]; rfl⟩
  · rintro ⟨a, ha, hd, hk, rfl⟩
    refine ⟨a, ha, ?_⟩
    simp [hd, hk, scoredJob]

/-- The comparison used for a Python-style descending sort is transitive. -/
theorem descKey_trans {α : Type} (key : α → ℚ) :
    ∀ (a b c : α), (fun x y => decide (key y ≤ key x)) a b = true →
      (fun x y => decide (key y ≤ key x)) b c = true →
      (fun x y => decide (key y ≤ key x)) a c = true := by
  intro a b c h1 h2
  exact decide_eq_true (le_trans (of_decide_eq_true h2) (of_decide_eq_true h1))

/-- The comparison used for a Python-style descending sort is total. -/
theorem descKey_total {α : Type} (key : α → ℚ) :
    ∀ (a b : α),
      ((fun x y => decide (key y ≤ key x)) a b ||
       (fun x y => decide (key y ≤ key x)) b a) = true := by
  intro a b
  rcases le_total (key b) (key a) with h | h <;> simp [h]

/-- Sorting with the descending comparison yields a list that is pairwise
descending in the key. -/
theorem pairwise_descKey_mergeSort {α : Type} (key : α → ℚ) (l : List α) :
    (l.mergeSort (fun a b => decide (key b ≤ key a))).Pairwise
      (fun a b => key b ≤ key a) := by
  have h := List.sorted_mergeSort (descKey_trans key) (descKey_total key) l
  exact h.imp (fun hab => of_decide_eq_true hab)

/-- Stability of the descending sort: filtering by any predicate that pins
the key leaves the sorted list and the input list with the same sublist. -/
theorem filter_descKey_mergeSort {α : Type} (key : α → ℚ) (p : α → Bool)
    (hp : ∀ a b, p a = true → p b = true → key b ≤ key a) (l : List α) :
    (l.mergeSort (fun a b => decide (key b ≤ key a))).filter p = l.filter p := by
  have hpair : (l.filter p).Pairwise
      (fun a b => (fun x y => decide (key y ≤ key x)) a b = true) := by
    apply List.pairwise_of_forall_mem_list
    intro a ha b hb
    exact decide_eq_true (hp a b (List.of_mem_filter ha) (List.of_mem_filter hb))
  have hsub : (l.filter p).Sublist
      (l.mergeSort (fun a b => decide (key b ≤ key a))) :=
    List.sublist_mergeSort (descKey_trans key) (descKey_total key) hpair
      (List.filter_sublist l)
  have hself : (l.filter p).filter p = l.filter p :=
    List.filter_eq_self.mpr (fun a ha => List.of_mem_filter ha)
  have hsub2 : (l.filter p).Sublist
      ((l.mergeSort (fun a b => decide (key b ≤ key a))).filter p) := by
    have := hsub.filter p
    rwa [hself] at this
  have hperm : ((l.mergeSort (fun a b => decide (key b ≤ key a))).filter p).Perm
      (l.filter p) := (List.mergeSort_perm l _).filter p
  exact (hsub2.eq_of_length hperm.length_eq.symm).symm

/-- The per-board loop with `c` URLs already consumed (`c < 5`) equals:
scrape the next `5 - c` URLs, keep the successful records, keep those that
pass the admission test. -/
theorem collectFrom_eq (scrape : String → Option Job) (isrec : String → Bool) :
    ∀ (urls : List String) (c : ℕ), c < 5 →
      collectFrom scrape isrec urls c =
        ((urls.take (5 - c)).filterMap scrape).filter (recencyAdmit isrec) := by
  intro urls
  induction urls with
  | nil => intro c _; simp [collectFrom]
  | cons u rest ih =>
    intro c hc
    have h5 : 5 - c = (4 - c) + 1 := by omega
    rw [h5, List.take_succ_cons, List.filterMap_cons]
    by_cases hstop : c + 1 ≥ 5
    · have hc4 : 4 - c = 0 := by omega
      rw [hc4]
      cases hscr : scrape u with
      | none => simp [collectFrom, hscr, hstop]
      | some jd => simp [collectFrom, hscr, hstop, List.filter_cons]
    · have hlt : c + 1 < 5 := by omega
      have hrest := ih (c + 1) hlt
      have h4 : 5 - (c + 1) = 4 - c := by omega
      rw [h4] at hrest
      cases hscr : scrape u with
      | none => simp [collectFrom, hscr, hstop, hrest]
      | some jd =>
        simp only [collectFrom, hscr, hstop, if_false, hrest, List.filter_cons]
        by_cases hadm : recencyAdmit isrec jd = true <;> simp [hadm]

/-- Membership in the aggregate of `search_jobs`: the record was scraped
from one of the first five search results of some board and passed the
admission test. -/
theorem mem_search_jobs (searchFn : String → List String)
    (scrape : String → Option Job) (now : ℚ) (job_type : String)
    (days_threshold : ℤ) (job : Job) :
    job ∈ search_jobs searchFn scrape now job_type days_threshold ↔
      (∃ board ∈ job_boards,
        job ∈ ((searchFn (construct_google_query job_type board)).take 5).filterMap scrape) ∧
      recencyAdmit (fun s => is_recent now s days_threshold) job = true := by
  unfold search_jobs
  rw [List.mem_flatten]
  constructor
  · rintro ⟨l, hl, hjl⟩
    rw [List.mem_map] at hl
    obtain ⟨board, hb, rfl⟩ := hl
    rw [collectFrom_eq _ _ _ 0 (by omega), List.mem_filter] at hjl
    exact ⟨⟨board, hb, hjl.1⟩, hjl.2⟩
  · rintro ⟨⟨board, hb, hjb⟩, hadm⟩
    refine ⟨collectFrom scrape (fun s => is_recent now s days_threshold)
      (searchFn (construct_google_query job_type board)) 0,
      List.mem_map.mpr ⟨board, hb, rfl⟩, ?_⟩
    rw [collectFrom_eq _ _ _ 0 (by omega), List.mem_filter]
    exact ⟨hjb, hadm⟩

/-- The admission test succeeds exactly when the date field is truthy and
recent, or the date field is falsy. -/
theorem recencyAdmit_eq_true_iff (isrec : String → Bool) (job : Job) :
    recencyAdmit isrec job = true ↔
      ((dateTruthy job.date = true ∧ isrec (job.date.getD "") = true) ∨
        dateTruthy job.date = false) := by
  unfold recencyAdmit
  cases h : dateTruthy job.date <;> simp [h]

/-- When the union of the two keyword sets is nonempty, the score expression
is the Jaccard index as a percentage. -/
theorem match_score_eq (rk jk : Finset String) (h : rk ∪ jk ≠ ∅) :
    match_score rk jk = 100 * ((rk ∩ jk).card : ℚ) / ((rk ∪ jk).card : ℚ) := by
  unfold match_score
  rw [if_pos h]
  ring

/-- Membership in the accumulator `similar_jobs` of `find_similar_jobs`. -/
theorem mem_similarCandidates_iff (sim : String → String → ℚ)
    (reference_job : Job) (job_list : List Job) (threshold : ℚ) (p : Job × ℚ) :
    p ∈ similarCandidates sim reference_job job_list threshold ↔
      ∃ a ∈ job_list, a.url ≠ reference_job.url ∧
        threshold ≤ sim reference_job.description a.description ∧
        p = (a, sim reference_job.description a.description) := by
  unfold similarCandidates
  rw [List.mem_filterMap]
  constructor
  · rintro ⟨a, ha, hfa⟩
    by_cases h1 : a.url = reference_job.url
    · simp [h1] at hfa
    · by_cases h2 : threshold ≤ sim reference_job.description a.description
      · simp [h1, h2] at hfa
        exact ⟨a, ha, h1, h2, hfa.symm⟩
      · simp [h1, h2] at hfa
  · rintro ⟨a, ha, h1, h2, rfl⟩
    exact ⟨a, ha, by simp [h1, h2]⟩

/-- C1: with a readable resume whose stripped text and keyword set are
nonempty, every posting in the result of `match_jobs_to_resume` has a
nonempty stripped description and a nonempty derived keyword set and
carries `match_percentage = round2 (100 · |resumeKw ∩ postingKw| /
|resumeKw ∪ postingKw|)`; every input posting with nonempty stripped
description and nonempty keyword set appears in the result with exactly
that score attached; and the score expression has an arithmetic guard
yielding 0 on an empty union. Postings with empty description or empty
keyword set are omitted: every result element fails both emptiness tests. -/
theorem resume_match_scoring (nlp : String → List Token) (resume_text : String)
    (job_list : List Job) (h1 : pyStrip resume_text ≠ "")
    (h2 : extract_keywords nlp resume_text ≠ ∅) :
    (∀ j ∈ match_jobs_to_resume nlp (some resume_text) job_list,
      pyStrip j.description ≠ "" ∧
      extract_keywords nlp (pyStrip j.description) ≠ ∅ ∧
      j.match_percentage = some (pyRound2 (100 *
        ((extract_keywords nlp resume_text ∩
            extract_keywords nlp (pyStrip j.description)).card : ℚ) /
        ((extract_keywords nlp resume_text ∪
            extract_keywords nlp (pyStrip j.description)).card : ℚ)))) ∧
    (∀ j ∈ job_list, pyStrip j.description ≠ "" →
      extract_keywords nlp (pyStrip j.description) ≠ ∅ →
      scoredJob nlp (extract_keywords nlp resume_text) j ∈
        match_jobs_to_resume nlp (some resume_text) job_list) ∧
    (∀ rk jk : Finset String, rk ∪ jk = ∅ → match_score rk jk = 0) := by
  refine ⟨?_, ?_, ?_⟩
  · intro j hj
    rw [match_jobs_eq nlp resume_text job_list h1 h2, List.mem_mergeSort,
      mem_matchedJobs_iff] at hj
    obtain ⟨a, ha, hd, hk, rfl⟩ := hj
    have hdesc : (scoredJob nlp (extract_keywords nlp resume_text) a).description =
        a.description := rfl
    rw [hdesc]
    have hu : extract_keywords nlp resume_text ∪
        extract_keywords nlp (pyStrip a.description) ≠ ∅ := by
      intro hemp
      exact h2 (Finset.union_eq_empty.mp hemp).1
    refine ⟨hd, hk, ?_⟩
    show some _ = some _
    rw [match_score_eq _ _ hu]
  · intro j hj hd hk
    rw [match_jobs_eq nlp resume_text job_list h1 h2, List.mem_mergeSort,
      mem_matchedJobs_iff]
    exact ⟨j, hj, hd, hk, rfl⟩
  · intro rk jk hu
    simp [match_score, hu]

/-- Witness for C1 at a concrete tokenizer, resume and posting. -/
theorem resume_match_scoring_witness :
    scoredJob nlpX (extract_keywords nlpX "python") jobA ∈
      match_jobs_to_resume nlpX (some "python") [jobA] ∧
    match_score ∅ ∅ = 0 :=
  ⟨(resume_match_scoring nlpX "python" [jobA] (by decide) (by decide)).2.1 jobA
      (by decide) (by decide) (by decide),
   (resume_match_scoring nlpX "python" [jobA] (by decide) (by decide)).2.2 ∅ ∅
      (by simp)⟩

/-- C2: a record enters the aggregate of `search_jobs` exactly when it was
successfully scraped from one of the first five search results of some board
and `(hasDate AND isRecent(date, daysThreshold)) OR (NOT hasDate)` holds of
it, where `hasDate` is Python truthiness of the date field; a failed or null
scrape contributes nothing. -/
theorem search_jobs_admission (searchFn : String → List String)
    (scrape : String → Option Job) (now : ℚ) (job_type : String)
    (days_threshold : ℤ) (job : Job) :
    job ∈ search_jobs searchFn scrape now job_type days_threshold ↔
      ((∃ board ∈ job_boards,
          job ∈ ((searchFn (construct_google_query job_type board)).take 5).filterMap scrape) ∧
       ((dateTruthy job.date = true ∧
           is_recent now (job.date.getD "") days_threshold = true) ∨
        dateTruthy job.date = false)) := by
  rw [mem_search_jobs]
  constructor
  · rintro ⟨hs, hadm⟩
    exact ⟨hs, (recencyAdmit_eq_true_iff _ job).mp hadm⟩
  · rintro ⟨hs, hcond⟩
    exact ⟨hs, (recencyAdmit_eq_true_iff _ job).mpr hcond⟩

/-- Witness for C2 at a concrete search provider and scraper. -/
theorem search_jobs_admission_witness :
    jobB ∈ search_jobs (fun _ => ["u"]) (fun _ => some jobB) 0 "x" 1 ↔
      ((∃ board ∈ job_boards,
          jobB ∈ (["u"].take 5).filterMap (fun _ : String => some jobB)) ∧
       ((dateTruthy jobB.date = true ∧
           is_recent 0 (jobB.date.getD "") 1 = true) ∨
        dateTruthy jobB.date = false)) :=
  search_jobs_admission (fun _ => ["u"]) (fun _ => some jobB) 0 "x" 1 jobB

/-- C3: whenever the first ten characters of the date string parse as a
calendar date, `is_recent` returns true exactly when `now − parsedDate` is
strictly below the threshold number of days. -/
theorem is_recent_window (now : ℚ) (s : String) (days_threshold : ℤ) (d : Date)
    (h : parseDate10 s = some d) :
    is_recent now s days_threshold = true ↔
      now - (toOrdinal d : ℚ) < (days_threshold : ℚ) := by
  unfold is_recent
  rw [h]
  simp

/-- Witness for C3 at the date of the spec's example. -/
theorem is_recent_window_witness :
    is_recent ((toOrdinal ⟨2024, 1, 2⟩ : ℕ) : ℚ) "2024-01-01" 2 = true ↔
      ((toOrdinal ⟨2024, 1, 2⟩ : ℕ) : ℚ) - ((toOrdinal ⟨2024, 1, 1⟩ : ℕ) : ℚ) <
        ((2 : ℤ) : ℚ) :=
  is_recent_window ((toOrdinal ⟨2024, 1, 2⟩ : ℕ) : ℚ) "2024-01-01" 2 ⟨2024, 1, 1⟩
    (by decide)

/-- C4: `is_recent` reads only the first ten characters of the date string,
and it is a total function that returns false on every parse failure. -/
theorem is_recent_first_ten_only (now : ℚ) (s : String) (days_threshold : ℤ) :
    is_recent now s days_threshold = is_recent now ⟨s.data.take 10⟩ days_threshold ∧
    (parseDate10 s = none → is_recent now s days_threshold = false) := by
  constructor
  · unfold is_recent
    have hp : parseDate10 s = parseDate10 ⟨s.data.take 10⟩ := by
      unfold parseDate10
      rw [List.take_take]
      norm_num
    rw [hp]
  · intro h
    unfold is_recent
    rw [h]

/-- Witness for C4 at the spec's example input. -/
theorem is_recent_first_ten_only_witness :
    is_recent 0 "not-a-date" 5 = false :=
  (is_recent_first_ten_only 0 "not-a-date" 5).2 (by decide)

/-- C5: every pair returned by `find_similar_jobs` has a url different from
the reference's, carries exactly `sim(reference.description,
candidate.description)`, and scores at or above the threshold; moreover a
candidate other than the reference is returned exactly when its similarity
score reaches the threshold. -/
theorem find_similar_jobs_spec (sim : String → String → ℚ)
    (reference_job : Job) (job_list : List Job) (threshold : ℚ) :
    (∀ p ∈ find_similar_jobs sim reference_job job_list threshold,
      p.1.url ≠ reference_job.url ∧
      p.2 = sim reference_job.description p.1.description ∧
      threshold ≤ p.2) ∧
    (∀ j ∈ job_list, j.url ≠ reference_job.url →
      ((j, sim reference_job.description j.description) ∈
          find_similar_jobs sim reference_job job_list threshold ↔
        threshold ≤ sim reference_job.description j.description)) := by
  constructor
  · intro p hp
    rw [find_similar_jobs, List.mem_mergeSort, mem_similarCandidates_iff] at hp
    obtain ⟨a, _, h1, h2, rfl⟩ := hp
    exact ⟨h1, rfl, h2⟩
  · intro j hj hne
    rw [find_similar_jobs, List.mem_mergeSort, mem_similarCandidates_iff]
    constructor
    · rintro ⟨a, _, _, h2, heq⟩
      have hja : j = a := congrArg Prod.fst heq
      rw [hja]
      exact h2
    · intro h
      exact ⟨j, hj, hne, h, rfl⟩

/-- Witness for C5 at a concrete similarity function and candidate list. -/
theorem find_similar_jobs_spec_witness :
    (jobB, simZero jobA.description jobB.description) ∈
        find_similar_jobs simZero jobA [jobB] 0 ↔
      (0 : ℚ) ≤ simZero jobA.description jobB.description :=
  (find_similar_jobs_spec simZero jobA [jobB] 0).2 jobB (by decide) (by decide)

/-- C6: both ranking operations return their accumulated pairs sorted in
descending score order, and the sort is stable: filtering the output at any
fixed score gives the same sequence as filtering the pre-sort accumulator,
so equal-score entries keep the input collection's relative order. -/
theorem ranking_sorted_and_stable :
    (∀ (sim : String → String → ℚ) (reference_job : Job) (job_list : List Job)
        (threshold : ℚ),
      (find_similar_jobs sim reference_job job_list threshold).Pairwise
        (fun a b => b.2 ≤ a.2) ∧
      ∀ q : ℚ,
        (find_similar_jobs sim reference_job job_list threshold).filter
            (fun p => decide (p.2 = q)) =
          (similarCandidates sim reference_job job_list threshold).filter
            (fun p => decide (p.2 = q))) ∧
    (∀ (nlp : String → List Token) (resume_text : String) (job_list : List Job),
      pyStrip resume_text ≠ "" → extract_keywords nlp resume_text ≠ ∅ →
      (match_jobs_to_resume nlp (some resume_text) job_list).Pairwise
        (fun a b => matchKey b ≤ matchKey a) ∧
      ∀ q : ℚ,
        (match_jobs_to_resume nlp (some resume_text) job_list).filter
            (fun j => decide (matchKey j = q)) =
          (matchedJobs nlp (extract_keywords nlp resume_text) job_list).filter
            (fun j => decide (matchKey j = q))) := by
  constructor
  · intro sim reference_job job_list threshold
    constructor
    · exact pairwise_descKey_mergeSort Prod.snd _
    · intro q
      exact filter_descKey_mergeSort Prod.snd (fun p => decide (p.2 = q))
        (fun a b ha hb => by
          rw [of_decide_eq_true ha, of_decide_eq_true hb]) _
  · intro nlp resume_text job_list h1 h2
    rw [match_jobs_eq nlp resume_text job_list h1 h2]
    constructor
    · exact pairwise_descKey_mergeSort matchKey _
    · intro q
      exact filter_descKey_mergeSort matchKey (fun j => decide (matchKey j = q))
        (fun a b ha hb => by
          rw [of_decide_eq_true ha, of_decide_eq_true hb]) _

/-- Witness for C6 at concrete inputs of both ranking operations. -/
theorem ranking_sorted_and_stable_witness :
    (find_similar_jobs simZero jobA [jobB] 0).Pairwise (fun a b => b.2 ≤ a.2) ∧
    (match_jobs_to_resume nlpX (some "python") [jobA]).Pairwise
      (fun a b => matchKey b ≤ matchKey a) :=
  ⟨(ranking_sorted_and_stable.1 simZero jobA [jobB] 0).1,
   (ranking_sorted_and_stable.2 nlpX "python" [jobA] (by decide) (by decide)).1⟩

/-- C7: `match_jobs_to_resume` returns the empty list, with no exception,
when the resume cannot be read, when the extracted text is empty or
whitespace-only after stripping, and when the resume keyword set is empty. -/
theorem match_jobs_fail_fast (nlp : String → List Token) (job_list : List Job) :
    match_jobs_to_resume nlp none job_list = [] ∧
    (∀ resume_text : String, pyStrip resume_text = "" →
      match_jobs_to_resume nlp (some resume_text) job_list = []) ∧
    (∀ resume_text : String, extract_keywords nlp resume_text = ∅ →
      match_jobs_to_resume nlp (some resume_text) job_list = []) := by
  refine ⟨rfl, ?_, ?_⟩
  · intro resume_text h
    simp [match_jobs_to_resume, h]
  · intro resume_text h
    by_cases h1 : pyStrip resume_text = ""
    · simp [match_jobs_to_resume, h1]
    · simp [match_jobs_to_resume, h1, h]

/-- Witness for C7 at the three failure modes. -/
theorem match_jobs_fail_fast_witness :
    match_jobs_to_resume nlpE none [jobA] = [] ∧
    match_jobs_to_resume nlpE (some "  ") [jobA] = [] ∧
    match_jobs_to_resume nlpE (some "text") [jobA] = [] :=
  ⟨(match_jobs_fail_fast nlpE [jobA]).1,
   (match_jobs_fail_fast nlpE [jobA]).2.1 "  " (by decide),
   (match_jobs_fail_fast nlpE [jobA]).2.2 "text" (by decide)⟩

/-- C9: every posting returned by `match_jobs_to_resume` is an input posting
with its title, company, date, description and url unchanged; only the
match percentage field differs. -/
theorem match_jobs_frame (nlp : String → List Token) (resume : Option String)
    (job_list : List Job) (j : Job)
    (h : j ∈ match_jobs_to_resume nlp resume job_list) :
    ∃ a ∈ job_list, j.title = a.title ∧ j.company = a.company ∧
      j.date = a.date ∧ j.description = a.description ∧ j.url = a.url := by
  cases resume with
  | none => simp [match_jobs_to_resume] at h
  | some resume_text =>
    by_cases h1 : pyStrip resume_text = ""
    · simp [match_jobs_to_resume, h1] at h
    · by_cases h2 : extract_keywords nlp resume_text = ∅
      · simp [match_jobs_to_resume, h1, h2] at h
      · rw [match_jobs_eq nlp resume_text job_list h1 h2, List.mem_mergeSort,
          mem_matchedJobs_iff] at h
        obtain ⟨a, ha, _, _, rfl⟩ := h
        exact ⟨a, ha, rfl, rfl, rfl, rfl, rfl⟩

/-- Witness for C9 at a concrete scored posting. -/
theorem match_jobs_frame_witness :
    ∃ a ∈ [jobA],
      (scoredJob nlpX (extract_keywords nlpX "python") jobA).title = a.title ∧
      (scoredJob nlpX (extract_keywords nlpX "python") jobA).company = a.company ∧
      (scoredJob nlpX (extract_keywords nlpX "python") jobA).date = a.date ∧
      (scoredJob nlpX (extract_keywords nlpX "python") jobA).description =
        a.description ∧
      (scoredJob nlpX (extract_keywords nlpX "python") jobA).url = a.url :=
  match_jobs_frame nlpX (some "python") [jobA] _ (by
    rw [match_jobs_eq nlpX "python" [jobA] (by decide) (by decide),
      List.mem_mergeSort, mem_matchedJobs_iff]
    exact ⟨jobA, by decide, by decide, by decide, rfl⟩)

/-- C10: in the pipeline's admission test, a record whose date field is the
empty string is admitted outright, exactly like a record with no date, and
this does not depend on the recency predicate at all: membership of such a
record in the `search_jobs` aggregate is the same for every clock and every
threshold. -/
theorem empty_date_like_no_date (isrec isrec' : String → Bool) (job : Job)
    (h : job.date = some "") :
    recencyAdmit isrec job = true ∧
    recencyAdmit isrec job = recencyAdmit isrec' { job with date := none } ∧
    (∀ (searchFn : String → List String) (scrape : String → Option Job)
        (now now' : ℚ) (job_type : String) (days days' : ℤ),
      job ∈ search_jobs searchFn scrape now job_type days ↔
        job ∈ search_jobs searchFn scrape now' job_type days') := by
  refine ⟨?_, ?_, ?_⟩
  · simp [recencyAdmit, dateTruthy, h]
  · simp [recencyAdmit, dateTruthy, h]
  · intro searchFn scrape now now' job_type days days'
    rw [mem_search_jobs, mem_search_jobs]
    have ha : ∀ f : String → Bool, recencyAdmit f job = true := fun f => by
      simp [recencyAdmit, dateTruthy, h]
    simp [ha]

/-- Witness for C10 at a concrete record with an empty-string date. -/
theorem empty_date_like_no_date_witness :
    recencyAdmit (fun _ => false) jobEmptyDate = true :=
  (empty_date_like_no_date (fun _ => false) (fun _ => false) jobEmptyDate
    (by decide)).1
